import Mathlib

/-!
Verification development for the acuity-widget-api proxy (`src/server.js`).

Modelling conventions (shallow embedding):

* Instants are `Int` milliseconds on the wall clock of the fixed display
  timezone `America/Edmonton` (`MST_TZ` in the source).  The zone is
  modelled as a fixed-offset clock: daylight-saving transitions are not
  modelled, so the zone-local timeline is order-isomorphic to UTC and we
  work directly in zone-local milliseconds.  Day 0 is 1970-01-01, a
  Thursday.
* ISO-8601 timestamp strings are abstracted by their parse result:
  `some t` stands for a string `new Date` parses to the instant `t`,
  `none` for a missing/falsy or unparseable one (JS `Invalid Date`).
* `Intl.DateTimeFormat` locale tables are abstracted by a `LocaleData`
  record; `enUS` is the concrete `en-US` table.  The handler receives the
  table lookup (`String → LocaleData`) as a parameter standing for `Intl`.
* The upstream Acuity API is abstracted by a function from the day offset
  probed (0, 1, 2, …) to either a slot list or an error; the per-call
  duration used for elapsed-time statements is a separate `Nat → Nat`.
-/

/-- One day in milliseconds (`oneDayMs`). -/
def oneDayMs : Int := 86400000

/-- Zone-local day number of an instant (what `toDateString` equality
compares: two instants are the same calendar day iff `dayOf` agrees). -/
def dayOf (t : Int) : Int := Int.fdiv t oneDayMs

/-- Millisecond of the zone-local day, in `[0, 86400000)`. -/
def msOfDay (t : Int) : Int := Int.emod t oneDayMs

/-- Zone-local hour of day, 0–23. -/
def hourOf (t : Int) : Int := Int.fdiv (msOfDay t) 3600000

/-- Zone-local minute of hour, 0–59. -/
def minOf (t : Int) : Int := Int.fdiv (Int.emod (msOfDay t) 3600000) 60000

/-- JS `Date.prototype.getDay` on the zone-local value: 0 = Sunday … 6 =
Saturday.  1970-01-01 (day 0) was a Thursday (= 4). -/
def jsGetDay (t : Int) : Int := Int.emod (dayOf t + 4) 7

/-- Proleptic Gregorian civil date. -/
structure CivilDate where
  year : Int
  month : Int
  day : Int
deriving DecidableEq, Repr

/-- Civil date from a day number (days since 1970-01-01), the standard
`civil_from_days` calendar algorithm; it is what `Intl.DateTimeFormat`
renders for the month/day parts. -/
def civilFromDays (z0 : Int) : CivilDate :=
  let z := z0 + 719468
  let era := Int.fdiv z 146097
  let doe := z - era * 146097
  let yoe := Int.fdiv (doe - Int.fdiv doe 1460 + Int.fdiv doe 36524 - Int.fdiv doe 146096) 365
  let y := yoe + era * 400
  let doy := doe - (365 * yoe + Int.fdiv yoe 4 - Int.fdiv yoe 100)
  let mp := Int.fdiv (5 * doy + 2) 153
  let d := doy - Int.fdiv (153 * mp + 2) 5 + 1
  let m := if mp < 10 then mp + 3 else mp - 9
  ⟨if m ≤ 2 then y + 1 else y, m, d⟩

/-- Locale tables as produced by `Intl.DateTimeFormat` for one locale:
weekday names indexed by `jsGetDay` (0 = Sunday) and month abbreviations
indexed by month − 1. -/
structure LocaleData where
  weekdayShort : List String
  weekdayLong : List String
  monthShort : List String
deriving DecidableEq, Repr

/-- The `en-US` locale table. -/
def enUS : LocaleData :=
  { weekdayShort := ["Sun", "Mon", "Tue", "Wed", "Thu", "Fri", "Sat"]
    weekdayLong := ["Sunday", "Monday", "Tuesday", "Wednesday", "Thursday", "Friday", "Saturday"]
    monthShort := ["Jan", "Feb", "Mar", "Apr", "May", "Jun", "Jul", "Aug", "Sep", "Oct", "Nov", "Dec"] }

/-- Two-digit zero padding, `String(x).padStart(2, '0')` for 0–59. -/
def pad2 (n : Int) : String := if n < 10 then "0" ++ toString n else toString n

/-- The `timeStr` built at server.js:60,
`` `${obj.hour}:${String(obj.minute).padStart(2, '0')} ${obj.period || ''}`.trim() ``:
hour `'numeric'` on the 12-hour cycle and the minute zero-padded.  No
AM/PM marker ever appears: `obj` is keyed by the `type` fields of
`formatToParts`, whose day-period part has type `dayPeriod`, so
`obj.period` is always `undefined`, `|| ''` substitutes the empty string
and `.trim()` strips the trailing space — the result is always the bare
`"h:mm"`. -/
def timeStr (t : Int) : String :=
  let h12 := Int.emod (hourOf t + 11) 12 + 1
  toString h12 ++ ":" ++ pad2 (minOf t)

/-- Start of the Monday-to-Sunday week used at server.js:75-76:
`weekStart = nowMST` with `setDate(getDate() - getDay() + 1)`, i.e. the
instant `now` shifted by `1 - getDay(now)` days, keeping time-of-day. -/
def weekStartOf (now : Int) : Int := now + (1 - jsGetDay now) * oneDayMs

/-- End of that week at server.js:77-78: `weekStart` plus 6 days. -/
def weekEndOf (now : Int) : Int := weekStartOf now + 6 * oneDayMs

/-- Body of `prettyDateTime` (server.js:42-94) for an input that parsed to
the instant `d`, classified against the instant `now`.  `loc` is the
requested locale's table; the `fullWeekday` lookup at server.js:83 is
hard-coded to `'en-US'` in the source and therefore uses `enUS` here. -/
def prettyDateTimeSome (d now : Int) (loc : LocaleData) : String :=
  let tStr := timeStr d
  let sameDay := dayOf d = dayOf now
  let isTomorrow := dayOf d = dayOf now + 1
  let isThisWeek := weekStartOf now ≤ d ∧ d ≤ weekEndOf now
  let fullWeekday := enUS.weekdayLong.getD (jsGetDay d).toNat ""
  let cd := civilFromDays (dayOf d)
  if sameDay then "Today: " ++ tStr
  else if isTomorrow then "Tomorrow: " ++ tStr
  else if isThisWeek then fullWeekday ++ ": " ++ tStr
  else
    loc.weekdayShort.getD (jsGetDay d).toNat "" ++ ", " ++
      loc.monthShort.getD cd.month.toNat.pred "" ++ " " ++
      toString cd.day ++ " â€” " ++ tStr

/-- `prettyDateTime(isoString, locale)` (server.js:42): `new Date` on a
malformed string yields an Invalid Date, on which `formatToParts`
(server.js:56) throws a `RangeError`; the function has no try/catch, so
the exception propagates (modelled as `Except.error`). -/
def prettyDateTime (parsed : Option Int) (now : Int) (loc : LocaleData) :
    Except String String :=
  match parsed with
  | none => Except.error "Invalid time value"
  | some d => Except.ok (prettyDateTimeSome d now loc)

/-- Day-difference formula of the specification: floor difference of the
midnight-anchored values divided by one day.  Modelled from the spec (the
source never computes it); used only to compare the spec's classification
with the code's. -/
def specDaysDiff (target now : Int) : Int :=
  Int.fdiv (dayOf target * oneDayMs - dayOf now * oneDayMs) oneDayMs

/-! ## Slots, availability scan, cache and request handler
(server.js:96-172) -/

/-- A provider slot `{ time: ... }`; the timestamp string is abstracted by
its parse result (`none` = missing/falsy or unparseable). -/
structure Slot where
  time : Option Int
deriving DecidableEq, Repr

/-- Sort key of the comparator at server.js:136,
`(a, b) => new Date(a.time) - new Date(b.time)`.  For a valid timestamp
this is the parsed instant.  For an invalid one the JS subtraction is
`NaN` and the engine's output order is unspecified; such slots are skipped
by the selection loop anyway, and are given key 0 here. -/
def slotKey (s : Slot) : Int :=
  match s.time with
  | some t => t
  | none => 0

/-- Ordering induced by `slotKey`. -/
def slotRel (a b : Slot) : Prop := slotKey a ≤ slotKey b

instance : DecidableRel slotRel :=
  fun a b => inferInstanceAs (Decidable (slotKey a ≤ slotKey b))

instance : IsTotal Slot slotRel := ⟨fun a b => Int.le_total (slotKey a) (slotKey b)⟩

instance : IsTrans Slot slotRel := ⟨fun _ _ _ h h2 => le_trans h h2⟩

/-- The `.sort(...)` call at server.js:136: a stable ascending sort by
timestamp, as `Array.prototype.sort` guarantees (modelled by insertion
sort, which is stable and structurally recursive). -/
def sortSlots (l : List Slot) : List Slot := l.insertionSort slotRel

/-- The selection loop at server.js:139-146 over the already-sorted list:
skip falsy times (`!slot.time continue`; an unparseable time likewise
fails `dt > now`), return the first slot strictly after `now`. -/
def firstFuture (now : Int) : List Slot → Option Int
  | [] => none
  | s :: rest =>
    match s.time with
    | none => firstFuture now rest
    | some t => if now < t then some t else firstFuture now rest

/-- One iteration of the day loop body: sort that day's slots, then pick
the first strictly-future one. -/
def dayScan (now : Int) (slots : List Slot) : Option Int :=
  firstFuture now (sortSlots slots)

/-- Result of one upstream availability call (server.js:131-134): the
slot array on a 2xx response, or an axios throw carrying the upstream
error detail. -/
inductive UpstreamResult where
  | ok (slots : List Slot)
  | err (detail : String)
deriving DecidableEq, Repr

/-- The `while (currentDate <= maxSearchDate && !nextSlot)` loop at
server.js:122-150, probing day offsets `offset, offset+1, …` while fuel
lasts (`maxSearchDate = today + 30` makes offsets 0–30, i.e. 31 probes).
Returns the loop outcome — a thrown upstream error, or the first
qualifying slot time if any — paired with the number of provider calls
made. -/
def scanFrom (fetch : Nat → UpstreamResult) (now : Int) (offset : Nat) :
    Nat → Except String (Option Int) × Nat
  | 0 => (Except.ok none, 0)
  | fuel + 1 =>
    match fetch offset with
    | UpstreamResult.err d => (Except.error d, 1)
    | UpstreamResult.ok slots =>
      match dayScan now slots with
      | some t => (Except.ok (some t), 1)
      | none =>
        let r := scanFrom fetch now (offset + 1) fuel
        (r.1, r.2 + 1)

/-- The whole scan: day offsets 0 through 30 inclusive. -/
def scan (fetch : Nat → UpstreamResult) (now : Int) :
    Except String (Option Int) × Nat :=
  scanFrom fetch now 0 31

/-- JS truthiness of an optional query-string parameter: present and
non-empty. -/
def truthy : Option String → Bool
  | none => false
  | some s => !s.isEmpty

/-- Query parameters of `GET /api/next-appointment` (server.js:99-101). -/
structure Query where
  appointmentTypeID : Option String
  calendarID : Option String
  locale : Option String
deriving DecidableEq, Repr

/-- The value of `appointmentTypeID || calendarID` (server.js:110,157)
when at least one is truthy. -/
def idField (q : Query) : String :=
  if truthy q.appointmentTypeID then q.appointmentTypeID.getD ""
  else q.calendarID.getD ""

/-- The cache key at server.js:110. -/
def cacheKey (q : Query) : String := "avail:" ++ idField q

/-- The value of `req.query.locale || 'en-US'` (server.js:101). -/
def effLocale (o : Option String) : String :=
  if truthy o then o.getD "" else "en-US"

/-- The `appointment` object of a found payload (server.js:156-159). -/
structure Appointment where
  type : String
  isAvailable : Bool
deriving DecidableEq, Repr

/-- A `NextAppointmentResult` payload (server.js:152-163). -/
structure Payload where
  found : Bool
  display : String
  datetime : Option Int
  appointment : Option Appointment
deriving DecidableEq, Repr

/-- `CACHE_TTL_SECONDS` (server.js:24). -/
def CACHE_TTL_SECONDS : Int := 60

/-- One NodeCache entry: stored value plus its expiry instant. -/
structure CacheEntry where
  value : Payload
  expiry : Int
deriving DecidableEq, Repr

/-- The NodeCache state, newest entry first. -/
abbrev Cache := List (String × CacheEntry)

/-- `cache.get(key)` at instant `now`: an entry is returned only while
unexpired (NodeCache evicts lazily; an expired entry reads as absent). -/
def cacheGet (c : Cache) (k : String) (now : Int) : Option Payload :=
  match c.find? (fun e => e.1 == k) with
  | some e => if now < e.2.expiry then some e.2.value else none
  | none => none

/-- `cache.set(key, value, CACHE_TTL_SECONDS)` at instant `now`: the new
entry shadows any older one for the same key. -/
def cacheSet (c : Cache) (k : String) (v : Payload) (now : Int) : Cache :=
  (k, ⟨v, now + CACHE_TTL_SECONDS * 1000⟩) :: c

/-- Response sent by the handler: `res.json(...)` (status 200) or the
catch-all `res.status(500).json({ error: ... })`. -/
inductive HResponse where
  | json (p : Payload)
  | err500 (body : String)
deriving DecidableEq, Repr

/-- HTTP status of a response. -/
def statusOf : HResponse → Nat
  | HResponse.json _ => 200
  | HResponse.err500 _ => 500

/-- What one request leaves behind: the response, the cache afterwards,
and how many provider calls were made. -/
structure HandlerOutcome where
  resp : HResponse
  cache : Cache
  providerCalls : Nat
deriving Repr

/-- The `GET /api/next-appointment` handler (server.js:97-172).
`localeTable` abstracts `Intl`'s locale lookup; `fetch` abstracts the
per-day provider call; `now` is the zone-local instant of the request
(the source re-reads the clock at server.js:115 and 138 — the request is
modelled at one frozen instant). -/
def handleNextAppointment (localeTable : String → LocaleData)
    (fetch : Nat → UpstreamResult) (now : Int) (q : Query) (c : Cache) :
    HandlerOutcome :=
  if !(truthy q.appointmentTypeID || truthy q.calendarID) then
    ⟨HResponse.json ⟨false, "No appointment type or calendar specified", none, none⟩, c, 0⟩
  else
    match cacheGet c (cacheKey q) now with
    | some cached => ⟨HResponse.json cached, c, 0⟩
    | none =>
      match scan fetch now with
      | (Except.error _, n) =>
        ⟨HResponse.err500 "Failed to fetch availability", c, n⟩
      | (Except.ok r, n) =>
        let payload : Payload :=
          match r with
          | some dt =>
            ⟨true, prettyDateTimeSome dt now (localeTable (effLocale q.locale)),
              some dt, some ⟨idField q, true⟩⟩
          | none => ⟨false, "No availability in next 30 days", none, none⟩
        ⟨HResponse.json payload, cacheSet c (cacheKey q) payload now, n⟩

/-- Total time the handler spends blocked on upstream calls, given the
per-call durations — the only blocking points of the request. -/
def elapsedMs (dur : Nat → Nat) (calls : Nat) : Nat :=
  ((List.range calls).map dur).sum

example : civilFromDays 19792 = ⟨2024, 3, 10⟩ := by decide
example : civilFromDays 19800 = ⟨2024, 3, 18⟩ := by decide
example : civilFromDays 19832 = ⟨2024, 4, 19⟩ := by decide
example : jsGetDay 1710072000000 = 0 := by decide

/-! ## Formatter claims (C1–C4)

Concrete zone-local instants used below:
* 1710072000000 = 2024-03-10 12:00 (Sunday), the spec's example "now";
* 1710082800000 = 2024-03-10 15:00;
* 1710151200000 = 2024-03-11 10:00 (Monday);
* 1710590400000 = 2024-03-16 12:00 (Saturday);
* 1710774000000 = 2024-03-18 15:00 (Monday, 2 days after the Saturday);
* 1710244800000 = 2024-03-12 12:00 (Tuesday);
* 1710428400000 = 2024-03-14 15:00 (Thursday);
* 1713538800000 = 2024-04-19 15:00 (Friday, 40 days after the example).
-/

/-- C1 (counterexample): with "now" Saturday 2024-03-16 12:00 and target
Monday 2024-03-18 15:00 the midnight-anchored day difference is 2, yet the
formatter does not return the full weekday name followed by " at {time}"
(under either reading of {time}, with or without AM/PM): the target falls
outside the current Monday-to-Sunday week, so the generic fallback fires
instead. -/
theorem C1_counterexample :
    specDaysDiff 1710774000000 1710590400000 = 2 ∧
      prettyDateTimeSome 1710774000000 1710590400000 enUS = "Mon, Mar 18 â€” 3:00" ∧
      prettyDateTimeSome 1710774000000 1710590400000 enUS ≠ "Monday at 3:00 PM" ∧
      prettyDateTimeSome 1710774000000 1710590400000 enUS ≠ "Monday at 3:00" :=
  ⟨by decide, by decide, by decide, by decide⟩

/-- C1 (amended): a target that is neither today nor tomorrow gets the
full-weekday form exactly when its instant lies inside the current
Monday-to-Sunday week of "now" (week bounds carry now's time-of-day), not
when 2 ≤ daysDiff ≤ 6; the form is "{FullWeekday}: {time}" with a colon,
the weekday always from the en-US table and {time} the bare 12-hour
"h:mm" with no AM/PM. -/
theorem C1_weekday_tier (d now : Int) (loc : LocaleData)
    (h1 : ¬dayOf d = dayOf now) (h2 : ¬dayOf d = dayOf now + 1)
    (h3 : weekStartOf now ≤ d) (h4 : d ≤ weekEndOf now) :
    prettyDateTimeSome d now loc =
      enUS.weekdayLong.getD (jsGetDay d).toNat "" ++ ": " ++ timeStr d := by
  simp only [prettyDateTimeSome]
  rw [if_neg h1, if_neg h2, if_pos (And.intro h3 h4)]

/-- C1 (witness): Thursday 2024-03-14 15:00 against Tuesday 2024-03-12
12:00 is in-week and two days out, giving "Thursday: 3:00". -/
theorem C1_witness :
    prettyDateTimeSome 1710428400000 1710244800000 enUS = "Thursday: 3:00" :=
  (C1_weekday_tier 1710428400000 1710244800000 enUS
    (by decide) (by decide) (by decide) (by decide)).trans (by decide)

/-- C2 (counterexample): at the spec's own example (now 2024-03-10 12:00
in zone, target the same day 15:00) the formatter returns "Today: 3:00",
not "Today at 3:00 PM" — the separator is a colon, and no AM/PM marker is
produced because server.js:60 reads `obj.period` while the
`formatToParts` part type is `dayPeriod`. -/
theorem C2_counterexample :
    prettyDateTimeSome 1710082800000 1710072000000 enUS = "Today: 3:00" ∧
      prettyDateTimeSome 1710082800000 1710072000000 enUS ≠ "Today at 3:00 PM" ∧
      prettyDateTimeSome 1710082800000 1710072000000 enUS ≠ "Today at 3:00" :=
  ⟨by decide, by decide, by decide⟩

/-- C2 (amended): a same-calendar-day target yields exactly
"Today: {time}" and a next-calendar-day target exactly "Tomorrow: {time}",
where {time} is the bare 12-hour "h:mm" with zero-padded minutes and no
AM/PM; the separator between the word and the time is ": ", not " at ". -/
theorem C2_today_tomorrow (d now : Int) (loc : LocaleData) :
    (dayOf d = dayOf now →
      prettyDateTimeSome d now loc = "Today: " ++ timeStr d) ∧
      (dayOf d = dayOf now + 1 →
        prettyDateTimeSome d now loc = "Tomorrow: " ++ timeStr d) := by
  constructor
  · intro h
    simp only [prettyDateTimeSome]
    rw [if_pos h]
  · intro h
    have h0 : ¬dayOf d = dayOf now := by omega
    simp only [prettyDateTimeSome]
    rw [if_neg h0, if_pos h]

/-- C2 (witness): the spec's example inputs, evaluated. -/
theorem C2_witness :
    prettyDateTimeSome 1710082800000 1710072000000 enUS = "Today: 3:00" ∧
      prettyDateTimeSome 1710151200000 1710072000000 enUS = "Tomorrow: 10:00" :=
  ⟨((C2_today_tomorrow 1710082800000 1710072000000 enUS).1 (by decide)).trans (by decide),
    ((C2_today_tomorrow 1710151200000 1710072000000 enUS).2 (by decide)).trans (by decide)⟩

/-- C3 (counterexample): a target 40 days out (2024-04-19 15:00 against
now 2024-03-10 12:00) renders as "Fri, Apr 19 â€” 3:00": it contains the
abbreviated weekday "Fri," and an "â€”" separator, not the claimed
weekday-free "{Mon} {Day} at {time}" shape (under either reading of
{time}). -/
theorem C3_counterexample :
    prettyDateTimeSome 1713538800000 1710072000000 enUS = "Fri, Apr 19 â€” 3:00" ∧
      prettyDateTimeSome 1713538800000 1710072000000 enUS ≠ "Apr 19 at 3:00 PM" ∧
      prettyDateTimeSome 1713538800000 1710072000000 enUS ≠ "Apr 19 at 3:00" :=
  ⟨by decide, by decide, by decide⟩

/-- C3 (amended): outside the Today/Tomorrow/current-week tiers the
formatter returns
"{Wkd}, {Mon} {Day} â€” {time}" — abbreviated weekday included, then the
abbreviated month and unpadded day-of-month, an "â€”" separator (a
mis-encoded em-dash in the source), the bare "h:mm" time with no AM/PM,
and no year. -/
theorem C3_fallback (d now : Int) (loc : LocaleData)
    (h1 : ¬dayOf d = dayOf now) (h2 : ¬dayOf d = dayOf now + 1)
    (h3 : ¬(weekStartOf now ≤ d ∧ d ≤ weekEndOf now)) :
    prettyDateTimeSome d now loc =
      loc.weekdayShort.getD (jsGetDay d).toNat "" ++ ", " ++
        loc.monthShort.getD (civilFromDays (dayOf d)).month.toNat.pred "" ++ " " ++
        toString (civilFromDays (dayOf d)).day ++ " â€” " ++ timeStr d := by
  simp only [prettyDateTimeSome]
  rw [if_neg h1, if_neg h2, if_neg h3]

/-- C3 (witness): the 40-days-out example, evaluated through the amended
theorem. -/
theorem C3_witness :
    prettyDateTimeSome 1713538800000 1710072000000 enUS = "Fri, Apr 19 â€” 3:00" :=
  (C3_fallback 1713538800000 1710072000000 enUS
    (by decide) (by decide) (by decide)).trans (by decide)

/-- C4 (counterexample): on an unparseable timestamp the formatter does
not return the string "Invalid time" — `formatToParts` throws. -/
theorem C4_counterexample :
    prettyDateTime none 0 enUS ≠ Except.ok "Invalid time" := by
  intro h
  simp only [prettyDateTime] at h
  exact Except.noConfusion h

/-- C4 (amended): a malformed timestamp makes `prettyDateTime` throw
(`formatToParts`' RangeError, modelled as `Except.error`), and nothing in
the function recovers it into a string — no "Invalid time" literal exists
in the code. -/
theorem C4_malformed_throws (now : Int) (loc : LocaleData) :
    prettyDateTime none now loc = Except.error "Invalid time value" ∧
      ∀ s, prettyDateTime none now loc ≠ Except.ok s := by
  refine ⟨rfl, fun s h => ?_⟩
  simp only [prettyDateTime] at h
  exact Except.noConfusion h

/-! ## Scan lemmas shared by the scanner and handler claims -/

/-- A probed day that answered 2xx with no qualifying slot. -/
def emptyDay (fetch : Nat → UpstreamResult) (now : Int) (j : Nat) : Prop :=
  ∃ sl, fetch j = UpstreamResult.ok sl ∧ dayScan now sl = none

theorem scanFrom_exhaust (fetch : Nat → UpstreamResult) (now : Int) :
    ∀ (fuel offset : Nat), (∀ j, j < fuel → emptyDay fetch now (offset + j)) →
      scanFrom fetch now offset fuel = (Except.ok none, fuel) := by
  intro fuel
  induction fuel with
  | zero => intro offset _; rfl
  | succ fuel ih =>
    intro offset h
    obtain ⟨sl, hf, hd⟩ := h 0 (Nat.succ_pos _)
    rw [Nat.add_zero] at hf
    have ih2 := ih (offset + 1) (fun j hj => by
      have h2 := h (j + 1) (Nat.succ_lt_succ hj)
      rwa [show offset + (j + 1) = offset + 1 + j by omega] at h2)
    simp only [scanFrom, hf, hd, ih2]

theorem scanFrom_found (fetch : Nat → UpstreamResult) (now t : Int) :
    ∀ (m fuel offset : Nat), m < fuel →
      (∀ j, j < m → emptyDay fetch now (offset + j)) →
      (∃ sl, fetch (offset + m) = UpstreamResult.ok sl ∧ dayScan now sl = some t) →
      scanFrom fetch now offset fuel = (Except.ok (some t), m + 1) := by
  intro m
  induction m with
  | zero =>
    intro fuel offset hm _ hq
    obtain ⟨sl, hf, hd⟩ := hq
    rw [Nat.add_zero] at hf
    match fuel, hm with
    | fuel + 1, _ => simp only [scanFrom, hf, hd]
  | succ m ih =>
    intro fuel offset hm he hq
    obtain ⟨sl, hf0, hd0⟩ := he 0 (Nat.succ_pos _)
    rw [Nat.add_zero] at hf0
    match fuel, hm with
    | fuel + 1, hm =>
      have ih2 := ih fuel (offset + 1) (Nat.lt_of_succ_lt_succ hm)
        (fun j hj => by
          have h2 := he (j + 1) (Nat.succ_lt_succ hj)
          rwa [show offset + (j + 1) = offset + 1 + j by omega] at h2)
        (by rwa [show offset + (m + 1) = offset + 1 + m by omega] at hq)
      simp only [scanFrom, hf0, hd0, ih2]

theorem firstFuture_pos (now : Int) :
    ∀ (l : List Slot) (t : Int), firstFuture now l = some t → now < t := by
  intro l
  induction l with
  | nil => intro t h; exact Option.noConfusion h
  | cons s rest ih =>
    intro t h
    match hs : s.time with
    | none =>
      simp only [firstFuture, hs] at h
      exact ih t h
    | some v =>
      simp only [firstFuture, hs] at h
      by_cases hv : now < v
      · rw [if_pos hv] at h
        cases h
        exact hv
      · rw [if_neg hv] at h
        exact ih t h

theorem firstFuture_min (now : Int) :
    ∀ (l : List Slot) (t : Int), l.Pairwise slotRel → firstFuture now l = some t →
      ∀ s ∈ l, ∀ u, s.time = some u → now < u → t ≤ u := by
  intro l
  induction l with
  | nil => intro t _ h; exact Option.noConfusion h
  | cons a rest ih =>
    intro t hp h s hs u hu hnu
    have hhead := (List.pairwise_cons.mp hp).1
    have hptail := (List.pairwise_cons.mp hp).2
    match ha : a.time with
    | none =>
      simp only [firstFuture, ha] at h
      rcases List.mem_cons.mp hs with hsa | hsr
      · rw [hsa, ha] at hu
        exact Option.noConfusion hu
      · exact ih t hptail h s hsr u hu hnu
    | some v =>
      simp only [firstFuture, ha] at h
      by_cases hv : now < v
      · rw [if_pos hv] at h
        have htv : t = v := (Option.some.inj h).symm
        rcases List.mem_cons.mp hs with hsa | hsr
        · rw [hsa, ha] at hu
          rw [htv, Option.some.inj hu]
        · have hrel : slotRel a s := hhead s hsr
          have hka : slotKey a = v := by simp [slotKey, ha]
          have hks : slotKey s = u := by simp [slotKey, hu]
          rw [htv, ← hka, ← hks]
          exact hrel
      · rw [if_neg hv] at h
        rcases List.mem_cons.mp hs with hsa | hsr
        · rw [hsa, ha] at hu
          rw [← Option.some.inj hu] at hnu
          exact absurd hnu hv
        · exact ih t hptail h s hsr u hu hnu

theorem scanFrom_future (fetch : Nat → UpstreamResult) (now : Int) :
    ∀ (fuel offset : Nat) (t : Int) (n : Nat),
      scanFrom fetch now offset fuel = (Except.ok (some t), n) → now < t := by
  intro fuel
  induction fuel with
  | zero =>
    intro offset t n h
    rw [Prod.mk.injEq] at h
    exact Option.noConfusion (Except.ok.inj h.1)
  | succ fuel ih =>
    intro offset t n h
    match hf : fetch offset with
    | UpstreamResult.err d =>
      simp only [scanFrom, hf] at h
      rw [Prod.mk.injEq] at h
      exact Except.noConfusion h.1
    | UpstreamResult.ok slots =>
      match hd : dayScan now slots with
      | some v =>
        simp only [scanFrom, hf, hd] at h
        rw [Prod.mk.injEq] at h
        have hvt : v = t := Option.some.inj (Except.ok.inj h.1)
        rw [← hvt]
        exact firstFuture_pos now (sortSlots slots) v hd
      | none =>
        simp only [scanFrom, hf, hd] at h
        have h1 : (scanFrom fetch now (offset + 1) fuel).1 = Except.ok (some t) :=
          congrArg Prod.fst h
        exact ih (offset + 1) t (scanFrom fetch now (offset + 1) fuel).2 (by rw [← h1])

/-! ## Handler and scanner claims (C5–C10) -/

/-- C5 (counterexample): with both identifying parameters absent the
handler's payload display is "No appointment type or calendar specified",
not the claimed "No type specified". -/
theorem C5_counterexample :
    (handleNextAppointment (fun _ => enUS) (fun _ => UpstreamResult.ok []) 0
        ⟨none, none, none⟩ []).resp =
      HResponse.json ⟨false, "No appointment type or calendar specified", none, none⟩ ∧
      "No appointment type or calendar specified" ≠ "No type specified" :=
  ⟨rfl, by decide⟩

/-- C5 (amended): when both `appointmentTypeID` and `calendarID` are
missing or empty the handler immediately returns
`{found:false, display:"No appointment type or calendar specified"}`, the
cache is untouched and no provider call is made — for every cache state
and every provider behaviour. -/
theorem C5_no_id_short_circuit (localeTable : String → LocaleData)
    (fetch : Nat → UpstreamResult) (now : Int) (q : Query) (c : Cache)
    (h1 : truthy q.appointmentTypeID = false) (h2 : truthy q.calendarID = false) :
    handleNextAppointment localeTable fetch now q c =
      ⟨HResponse.json ⟨false, "No appointment type or calendar specified", none, none⟩,
        c, 0⟩ := by
  simp only [handleNextAppointment, h1, h2, Bool.or_false, Bool.not_false, if_true]

/-- C5 (witness): the short-circuit evaluated on a concrete request with
no identifying parameters. -/
theorem C5_witness :
    handleNextAppointment (fun _ => enUS) (fun _ => UpstreamResult.ok []) 0
        ⟨none, none, none⟩ [] =
      ⟨HResponse.json ⟨false, "No appointment type or calendar specified", none, none⟩,
        [], 0⟩ :=
  C5_no_id_short_circuit (fun _ => enUS) (fun _ => UpstreamResult.ok []) 0
    ⟨none, none, none⟩ [] rfl rfl

/-- C6: the scan probes day offsets in ascending order starting at 0, one
provider call per day, and stops at the first day holding a qualifying
slot: if days 0..m−1 are empty (m ≤ 30) and day m has a qualifying slot
at `t`, the scan returns `t` after exactly m+1 calls; if all 31 days
0..30 are empty it returns no slot after exactly 31 calls, and the
handler then responds `found:false` with "No availability in next 30
days". -/
theorem C6_scan_order (fetch : Nat → UpstreamResult) (now : Int) :
    (∀ (m : Nat) (t : Int), m ≤ 30 → (∀ j, j < m → emptyDay fetch now j) →
      (∃ sl, fetch m = UpstreamResult.ok sl ∧ dayScan now sl = some t) →
      scan fetch now = (Except.ok (some t), m + 1)) ∧
      ((∀ j, j ≤ 30 → emptyDay fetch now j) → scan fetch now = (Except.ok none, 31)) ∧
      (∀ (localeTable : String → LocaleData) (q : Query) (c : Cache),
        (truthy q.appointmentTypeID || truthy q.calendarID) = true →
        cacheGet c (cacheKey q) now = none →
        (∀ j, j ≤ 30 → emptyDay fetch now j) →
        (handleNextAppointment localeTable fetch now q c).resp =
          HResponse.json ⟨false, "No availability in next 30 days", none, none⟩) := by
  have hexh : (∀ j, j ≤ 30 → emptyDay fetch now j) →
      scan fetch now = (Except.ok none, 31) := by
    intro h
    exact scanFrom_exhaust fetch now 31 0 (fun j hj => by
      have h2 := h j (by omega)
      rwa [show j = 0 + j by omega] at h2)
  refine ⟨?_, hexh, ?_⟩
  · intro m t hm he hq
    exact scanFrom_found fetch now t m 31 0 (by omega)
      (fun j hj => by
        have h2 := he j hj
        rwa [show j = 0 + j by omega] at h2)
      (by rwa [show 0 + m = m by omega])
  · intro localeTable q c hid hmiss hempty
    simp only [handleNextAppointment, hid, Bool.not_true, Bool.false_eq_true, if_false,
      hmiss, hexh hempty]

/-- C6 (witness): the spec's stub — empty slot arrays for days 0–4, one
future slot on day 5 — yields that slot after exactly 6 provider calls. -/
theorem C6_witness :
    scan (fun k => if k = 5 then UpstreamResult.ok [Slot.mk (some 100)]
      else UpstreamResult.ok []) 0 =
      (Except.ok (some 100), 6) := by
  refine (C6_scan_order _ 0).1 5 100 (by omega)
    (fun j hj => ⟨[], ?_, rfl⟩)
    ⟨[Slot.mk (some 100)], by simp, rfl⟩
  simp [show j ≠ 5 by omega]

/-- C7: each day's slots are sorted ascending by timestamp before
selection (the processed list is a sorted permutation of the provider's),
the selected slot both is strictly after "now" and is the earliest
strictly-future slot of its day, and any slot time the whole scan returns
is strictly after "now". -/
theorem C7_sorted_strictly_future :
    (∀ l : List Slot, (sortSlots l).Pairwise slotRel ∧ (sortSlots l).Perm l) ∧
      (∀ (now : Int) (l : List Slot) (t : Int), dayScan now l = some t →
        now < t ∧ ∀ s ∈ l, ∀ u, s.time = some u → now < u → t ≤ u) ∧
      (∀ (fetch : Nat → UpstreamResult) (now t : Int) (n : Nat),
        scan fetch now = (Except.ok (some t), n) → now < t) := by
  refine ⟨fun l => ⟨List.sorted_insertionSort slotRel l, List.perm_insertionSort slotRel l⟩,
    ?_, ?_⟩
  · intro now l t h
    refine ⟨firstFuture_pos now (sortSlots l) t h, fun s hs u hu hnu => ?_⟩
    exact firstFuture_min now (sortSlots l) t (List.sorted_insertionSort slotRel l) h s
      ((List.perm_insertionSort slotRel l).mem_iff.mpr hs) u hu hnu
  · intro fetch now t n h
    exact scanFrom_future fetch now 31 0 t n h

/-- C7 (witness): a day with slots [5, 3] and now = 2 selects 3, which is
strictly future. -/
theorem C7_witness : (2 : Int) < 3 :=
  (C7_sorted_strictly_future.2.1 2 [Slot.mk (some 5), Slot.mk (some 3)] 3 rfl).1

/-- C8: when the scan aborts because a provider call failed, the handler
answers 500 with the fixed body "Failed to fetch availability" — the
upstream detail does not appear in the response — and the cache is left
exactly as it was (nothing is stored on the error path). -/
theorem C8_upstream_error (localeTable : String → LocaleData)
    (fetch : Nat → UpstreamResult) (now : Int) (q : Query) (c : Cache)
    (detail : String) (n : Nat)
    (hid : (truthy q.appointmentTypeID || truthy q.calendarID) = true)
    (hmiss : cacheGet c (cacheKey q) now = none)
    (hscan : scan fetch now = (Except.error detail, n)) :
    handleNextAppointment localeTable fetch now q c =
      ⟨HResponse.err500 "Failed to fetch availability", c, n⟩ := by
  simp only [handleNextAppointment, hid, Bool.not_true, Bool.false_eq_true, if_false,
    hmiss, hscan]

/-- C8 (witness): a network failure on the first probed day yields the
generic 500 (no trace of "ECONNREFUSED") and an unchanged empty cache. -/
theorem C8_witness :
    handleNextAppointment (fun _ => enUS) (fun _ => UpstreamResult.err "ECONNREFUSED") 0
        ⟨some "8355307", none, none⟩ [] =
      ⟨HResponse.err500 "Failed to fetch availability", [], 1⟩ :=
  C8_upstream_error (fun _ => enUS) (fun _ => UpstreamResult.err "ECONNREFUSED") 0
    ⟨some "8355307", none, none⟩ [] "ECONNREFUSED" 1 rfl rfl rfl

/-- C9 (counterexample): a request whose single upstream call takes 9
seconds — total handling time 9000 ms > 8000 ms — still receives the
ordinary 200 scan result, not a 504: no watchdog exists in the code. -/
theorem C9_counterexample :
    8000 < elapsedMs (fun _ => 9000)
        (handleNextAppointment (fun _ => enUS)
          (fun _ => UpstreamResult.ok [Slot.mk (some 1)]) 0
          ⟨some "8355307", none, none⟩ []).providerCalls ∧
      statusOf (handleNextAppointment (fun _ => enUS)
          (fun _ => UpstreamResult.ok [Slot.mk (some 1)]) 0
          ⟨some "8355307", none, none⟩ []).resp = 200 :=
  ⟨by decide, rfl⟩

/-- C9 (amended): the handler has no watchdog timer: whatever the
provider behaviour, cache state and elapsed time, its response status is
200 or 500 — a 504-equivalent timeout response is never produced. -/
theorem C9_no_watchdog (localeTable : String → LocaleData)
    (fetch : Nat → UpstreamResult) (now : Int) (q : Query) (c : Cache) :
    statusOf (handleNextAppointment localeTable fetch now q c).resp ≠ 504 ∧
      (statusOf (handleNextAppointment localeTable fetch now q c).resp = 200 ∨
        statusOf (handleNextAppointment localeTable fetch now q c).resp = 500) := by
  cases h : (handleNextAppointment localeTable fetch now q c).resp <;> simp [statusOf]

/-- C10: the cache key depends only on the identifying field, never on
the locale; a first cache-miss request stores its payload — whose display
text was rendered under the first request's locale — and a second request
with the same identifying field but a different locale, arriving before
the TTL expires, is answered from the cache verbatim, making no provider
call regardless of its own locale, locale table or provider behaviour. -/
theorem C10_cache_ignores_locale (localeTable localeTable2 : String → LocaleData)
    (fetch fetch2 : Nat → UpstreamResult) (t1 t2 dt : Int) (n : Nat)
    (id loc1 loc2 : Option String) (c : Cache)
    (hid : truthy id = true)
    (hmiss : cacheGet c (cacheKey ⟨id, none, loc1⟩) t1 = none)
    (hscan : scan fetch t1 = (Except.ok (some dt), n))
    (hfresh : t2 < t1 + CACHE_TTL_SECONDS * 1000) :
    (∀ (a b la lb : Option String), cacheKey ⟨a, b, la⟩ = cacheKey ⟨a, b, lb⟩) ∧
      ∀ p : Payload,
        p = ⟨true, prettyDateTimeSome dt t1 (localeTable (effLocale loc1)), some dt,
          some (Appointment.mk (idField ⟨id, none, loc1⟩) true)⟩ →
        handleNextAppointment localeTable fetch t1 ⟨id, none, loc1⟩ c =
            ⟨HResponse.json p, cacheSet c (cacheKey ⟨id, none, loc1⟩) p t1, n⟩ ∧
          handleNextAppointment localeTable2 fetch2 t2 ⟨id, none, loc2⟩
              (cacheSet c (cacheKey ⟨id, none, loc1⟩) p t1) =
            ⟨HResponse.json p, cacheSet c (cacheKey ⟨id, none, loc1⟩) p t1, 0⟩ := by
  refine ⟨fun a b la lb => rfl, fun p hp => ⟨?_, ?_⟩⟩
  · simp only [handleNextAppointment, hid, Bool.true_or, Bool.not_true,
      Bool.false_eq_true, if_false, hmiss, hscan, hp]
  · have hkey : cacheKey ⟨id, none, loc2⟩ = cacheKey ⟨id, none, loc1⟩ := rfl
    simp only [handleNextAppointment, hid, Bool.true_or, Bool.not_true,
      Bool.false_eq_true, if_false, hkey, cacheGet, cacheSet, List.find?,
      beq_self_eq_true, if_pos hfresh]

/-- C10 (witness): a first request with locale fr-FR fills the cache;
30 seconds later the same `appointmentTypeID` with locale de-DE — and a
provider that is now failing — still receives the cached payload with the
first request's display text, after zero provider calls. -/
theorem C10_witness :
    handleNextAppointment (fun _ => enUS) (fun _ => UpstreamResult.err "down") 30000
        ⟨some "8355307", none, some "de-DE"⟩
        (cacheSet [] (cacheKey ⟨some "8355307", none, some "fr-FR"⟩)
          ⟨true, "Today: 12:00", some 1, some (Appointment.mk "8355307" true)⟩ 0) =
      ⟨HResponse.json ⟨true, "Today: 12:00", some 1, some (Appointment.mk "8355307" true)⟩,
        cacheSet [] (cacheKey ⟨some "8355307", none, some "fr-FR"⟩)
          ⟨true, "Today: 12:00", some 1, some (Appointment.mk "8355307" true)⟩ 0, 0⟩ :=
  ((C10_cache_ignores_locale (fun _ => enUS) (fun _ => enUS)
      (fun _ => UpstreamResult.ok [Slot.mk (some 1)]) (fun _ => UpstreamResult.err "down")
      0 30000 1 1 (some "8355307") (some "fr-FR") (some "de-DE") []
      rfl rfl rfl (by decide)).2
    ⟨true, "Today: 12:00", some 1, some (Appointment.mk "8355307" true)⟩ (by decide)).2
